import Mathlib

/-!
Verification of the munki process-control core: a shallow embedding of
`code/client/munkilib/munkicommon/processes.py` and
`code/client/munkilib/osinstaller.py`, with theorems checking the
natural-language specification against the code.

External collaborators (subprocess output, the filesystem, disk-image
mounting, the launchd job, the status display, the log sink) are modelled
as explicit inputs and as an emitted list of `Event`s, following the
spec's "external interfaces" section.  Python strings are modelled as
Lean `String`s (lists of characters); the Python string operations used
by the code are re-implemented faithfully below.
-/

namespace Munki

/-! ## Python string primitives -/

/-- Python whitespace characters (ASCII), as used by `str.split(None)`,
`str.strip()` and `str.rstrip()`. -/
def pyIsSpace (c : Char) : Bool :=
  c == ' ' || c == '\t' || c == '\n' || c == '\r' || c == '\x0b' || c == '\x0c'

/-- Python `s.startswith(p)`. -/
def strStartsWith (s p : String) : Bool :=
  p.data.isPrefixOf s.data

/-- Python `s.endswith(p)`. -/
def strEndsWith (s p : String) : Bool :=
  p.data.reverse.isPrefixOf s.data.reverse

/-- Substring containment on character lists: Python's `pat in hay`. -/
def listContainsSub : List Char → List Char → Bool
  | _, [] => true
  | [], _ :: _ => false
  | c :: rest, p :: ps =>
      ((p :: ps).isPrefixOf (c :: rest)) || listContainsSub rest (p :: ps)

/-- Python `pat in hay` for strings. -/
def strContains (hay pat : String) : Bool :=
  listContainsSub hay.data pat.data

/-- Python `s[n:]` (slice from character index `n`). -/
def strDrop (s : String) (n : Nat) : String :=
  ⟨s.data.drop n⟩

/-- Remove trailing characters satisfying `p`. -/
def rstripBy (p : Char → Bool) (cs : List Char) : List Char :=
  (cs.reverse.dropWhile p).reverse

/-- Python `s.rstrip()` (strip trailing whitespace). -/
def strRstripWs (s : String) : String :=
  ⟨rstripBy pyIsSpace s.data⟩

/-- Python `s.rstrip(c)` for a single character `c`. -/
def strRstripChar (s : String) (c : Char) : String :=
  ⟨rstripBy (fun x => x == c) s.data⟩

/-- Strip leading and trailing Python whitespace from a character list. -/
def stripWsChars (cs : List Char) : List Char :=
  rstripBy pyIsSpace (cs.dropWhile pyIsSpace)

/-- Python `os.path.basename(p)`: the part of `p` after the last slash. -/
def pyBasename (p : String) : String :=
  ⟨(p.data.reverse.takeWhile (fun c => c ≠ '/')).reverse⟩

/-- Python `os.path.join(a, b)` for two components (POSIX rules). -/
def pyPathJoin (a b : String) : String :=
  if strStartsWith b "/" then b
  else if a = "" || strEndsWith a "/" then a ++ b
  else a ++ "/" ++ b

/-- Helper for `pySplitlines`: accumulates the current line (reversed). -/
def splitlinesGo : List Char → List Char → List String
  | [], acc => if acc.isEmpty then [] else [⟨acc.reverse⟩]
  | '\n' :: rest, acc => String.mk acc.reverse :: splitlinesGo rest []
  | c :: rest, acc => splitlinesGo rest (c :: acc)

/-- Python `s.splitlines()` (modelled for `'\n'` line endings, the form
produced by the process-listing facility). -/
def pySplitlines (s : String) : List String :=
  splitlinesGo s.data []

/-- First whitespace-delimited token of a character list and the rest. -/
def takeTok (cs : List Char) : List Char × List Char :=
  (cs.takeWhile (fun c => ¬ pyIsSpace c), cs.dropWhile (fun c => ¬ pyIsSpace c))

/-- Python `s.split(None, 2)`: split on runs of whitespace, at most two
splits; the remainder keeps its internal and trailing whitespace, with
leading whitespace stripped, and is omitted when it is all whitespace. -/
def pySplitNone2 (s : String) : List String :=
  let cs := s.data.dropWhile pyIsSpace
  match cs with
  | [] => []
  | _ :: _ =>
    let t1 := takeTok cs
    let r1 := t1.2.dropWhile pyIsSpace
    match r1 with
    | [] => [⟨t1.1⟩]
    | _ :: _ =>
      let t2 := takeTok r1
      let r2 := t2.2.dropWhile pyIsSpace
      match r2 with
      | [] => [⟨t1.1⟩, ⟨t2.1⟩]
      | _ :: _ => [⟨t1.1⟩, ⟨t2.1⟩, ⟨r2⟩]

/-- Digit list to natural number (base 10). -/
def digitsToNat (cs : List Char) : Nat :=
  cs.foldl (fun n c => 10 * n + (c.toNat - 48)) 0

/-- Python `int(s)` for a base-10 string: optional surrounding
whitespace, optional sign, then at least one digit; `none` models a
raised `ValueError`. -/
def pyInt (s : String) : Option Int :=
  let cs := stripWsChars s.data
  match cs with
  | '+' :: r => if r ≠ [] ∧ r.all Char.isDigit then some (digitsToNat r : Int) else none
  | '-' :: r => if r ≠ [] ∧ r.all Char.isDigit then some (-(digitsToNat r : Int)) else none
  | r => if r ≠ [] ∧ r.all Char.isDigit then some (digitsToNat r : Int) else none

/-- The value of a Python float: a finite value (idealized as the exact
decimal `mant * 10 ^ exp10`, without binary rounding), an infinity, or
NaN. -/
inductive PyFloat where
  | finite (mant : Int) (exp10 : Int)
  | infinite (neg : Bool)
  | nan
  deriving DecidableEq, Repr

/-- ASCII lowercase. -/
def asciiLower (c : Char) : Char := c.toLower

/-- Case-insensitive whole-string keyword match. -/
def matchKeyword (cs : List Char) (kw : List Char) : Bool :=
  cs.map asciiLower == kw

/-- Leading digits of a character list, and the rest. -/
def takeDigits (cs : List Char) : List Char × List Char :=
  (cs.takeWhile Char.isDigit, cs.dropWhile Char.isDigit)

/-- Exponent digits after an optional sign; `none` when empty or non-digit. -/
def parseExpDigits (neg : Bool) (cs : List Char) : Option Int :=
  match cs with
  | [] => none
  | _ => if cs.all Char.isDigit then
           some (if neg then -(digitsToNat cs : Int) else (digitsToNat cs : Int))
         else none

/-- The exponent part of a float literal (after the `e`/`E`). -/
def parseExpPart (cs : List Char) : Option Int :=
  match cs with
  | '+' :: r => parseExpDigits false r
  | '-' :: r => parseExpDigits true r
  | r => parseExpDigits false r

/-- Mantissa and power-of-ten exponent of integer digits, fraction
digits and a decimal exponent: the exact value is
`digits(intD ++ fracD) * 10 ^ (e - length fracD)`. -/
def decParts (intD fracD : List Char) (e : Int) : Nat × Int :=
  (digitsToNat (intD ++ fracD), e - (fracD.length : Int))

/-- The numeric body of a Python float literal:
`digits [. digits] [e|E [sign] digits]` with at least one digit. -/
def parseDecimal (body : List Char) : Option (Nat × Int) :=
  let p1 := takeDigits body
  let p2 := match p1.2 with
            | '.' :: r => takeDigits r
            | _ => ([], p1.2)
  if p1.1.isEmpty && p2.1.isEmpty then none
  else
    match p2.2 with
    | [] => some (decParts p1.1 p2.1 0)
    | 'e' :: r => (parseExpPart r).map (decParts p1.1 p2.1)
    | 'E' :: r => (parseExpPart r).map (decParts p1.1 p2.1)
    | _ => none

/-- Python `float(s)`: surrounding whitespace, optional sign, then either
`inf`/`infinity`/`nan` (case-insensitive) or a decimal literal.  `none`
models a raised `ValueError`.  Finite values are idealized as exact
rationals (no binary rounding). -/
def pyFloatOfString (s : String) : Option PyFloat :=
  let cs := stripWsChars s.data
  match cs with
  | [] => none
  | _ =>
    let sb : Bool × List Char :=
      match cs with
      | '+' :: rest => (false, rest)
      | '-' :: rest => (true, rest)
      | _ => (false, cs)
    if matchKeyword sb.2 ['i', 'n', 'f'] || matchKeyword sb.2 ['i', 'n', 'f', 'i', 'n', 'i', 't', 'y'] then
      some (.infinite sb.1)
    else if matchKeyword sb.2 ['n', 'a', 'n'] then
      some .nan
    else
      match parseDecimal sb.2 with
      | some me => some (.finite (if sb.1 then -(me.1 : Int) else (me.1 : Int)) me.2)
      | none => none

/-- Python `int(f)` on the finite float `mant * 10 ^ exp10`: truncation
toward zero. -/
def pyTrunc (mant exp10 : Int) : Int :=
  if 0 ≤ exp10 then mant * 10 ^ exp10.toNat
  else Int.tdiv mant (10 ^ (-exp10).toNat)

/-- The Python exceptions this embedding distinguishes. -/
inductive PyExc where
  | valueError
  | overflowError
  | keyError
  | attributeError
  deriving DecidableEq, Repr

deriving instance DecidableEq for Except

/-! ## Effects on external collaborators

Calls made by the code to its collaborators (the status display, the log
sink, the disk-image service, the job supervisor, the filesystem) are
recorded as a list of events, in the order the code performs them. -/

/-- One call to an external collaborator. -/
inductive Event where
  | displayInfo (msg : String)
  | displayError (msg : String)
  | displayStatusMinor (msg : String)
  | displayStatusMajor (msg : String)
  | displayPercent (p : Int) (total : Int)
  | displayDebug1 (msg : String)
  | munkistatusPercent (p : Int)
  | logMsg (msg : String)
  | unmountDmg (mp : String)
  | stopJob
  | markerFile (path : String)
  | killPid (pid : Int)
  deriving DecidableEq, Repr

/-! ## processes.py -/

/-- The path of the old Carbon launcher checked by `getRunningProcesses`. -/
def LaunchCFMApp : String :=
  "/System/Library/Frameworks/Carbon.framework/Versions/A/Support/LaunchCFMApp"

/-- `getRunningProcesses` (processes.py lines 37-64).  The two `ps`
invocations are modelled by their return codes and raw standard output
(`ret1`/`out1` for `ps -axo comm=`, `ret2`/`out2` for `ps -axwwwo args=`,
the latter only consulted on the Carbon branch). -/
def getRunningProcesses (ret1 : Int) (out1 : String) (ret2 : Int) (out2 : String) :
    List String :=
  if ret1 = 0 then
    let proc_list := (pySplitlines out1).filter (fun item => strStartsWith item "/")
    if proc_list.contains LaunchCFMApp then
      if ret2 = 0 then
        let carbon_apps := ((pySplitlines out2).filter
            (fun item => strStartsWith item LaunchCFMApp)).map
            (fun item => strDrop item (LaunchCFMApp.length + 1))
        if carbon_apps.isEmpty then proc_list else proc_list ++ carbon_apps
      else proc_list
    else proc_list
  else []

/-- `isAppRunning` (processes.py lines 67-97).  The process table
(`getRunningProcesses()` result) is passed in as `proc_list`; the
`display_detail`/`display_debug1` calls carry no decision logic and are
not recorded here. -/
def isAppRunning (proc_list : List String) (appname : String) : Bool :=
  let matching_items :=
    if strStartsWith appname "/" then
      proc_list.filter (fun item => item == appname)
    else if strEndsWith appname ".app" then
      proc_list.filter (fun item => strContains item ("/" ++ appname ++ "/Contents/MacOS/"))
    else
      proc_list.filter (fun item => strEndsWith item ("/" ++ appname))
  let matching_items2 :=
    if matching_items.isEmpty then
      proc_list.filter (fun item => strContains item ("/" ++ appname ++ ".app/Contents/MacOS/"))
    else matching_items
  !matching_items2.isEmpty

/-- One entry of a pkginfo `installs` list.  `path` is `Option` because
the code reads it with `item.get('path')`, which yields `None` when the
key is absent; `type_` models `item['type']` (assumed present). -/
structure InstallsEntry where
  type_ : String
  path : Option String
  deriving DecidableEq, Repr

/-- A pkginfo item, restricted to the keys `blockingApplicationsRunning`
reads: `blocking_applications`, `installs` and `name` (each optional,
since Python dict lookups of absent keys raise or default). -/
structure PkgInfoItem where
  blocking_applications : Option (List String)
  installs : Option (List InstallsEntry)
  name : Option String
  deriving DecidableEq, Repr

/-- The candidate-name comprehension of `blockingApplicationsRunning`
(processes.py lines 110-112): one `os.path.basename(item.get('path'))`
per `installs` entry whose type is `application`.  When such an entry has
no `path`, `os.path.basename(None)` raises (`AttributeError` in this
Python), modelled as an error. -/
def candidateNames : List InstallsEntry → Except PyExc (List String)
  | [] => .ok []
  | e :: rest =>
    if e.type_ == "application" then
      match e.path with
      | none => .error .attributeError
      | some p => (candidateNames rest).map (fun ns => pyBasename p :: ns)
    else candidateNames rest

/-- The `appnames` computed by `blockingApplicationsRunning`
(processes.py lines 105-112). -/
def appnamesOf (pkg : PkgInfoItem) : Except PyExc (List String) :=
  match pkg.blocking_applications with
  | some l => .ok l
  | none => candidateNames (pkg.installs.getD [])

/-- `blockingApplicationsRunning` (processes.py lines 100-122).  On the
true-returning path the code formats `pkginfoitem['name']` into a status
message before returning, so a missing `name` key raises `KeyError`
there. -/
def blockingApplicationsRunning (proc_list : List String) (pkg : PkgInfoItem) :
    Except PyExc Bool :=
  match appnamesOf pkg with
  | .error e => .error e
  | .ok appnames =>
    let running_apps := appnames.filter (fun a => isAppRunning proc_list a)
    if running_apps.isEmpty then .ok false
    else
      match pkg.name with
      | some _ => .ok true
      | none => .error .keyError

/-- A process record as built by `findProcesses`: owning user and
executable. -/
structure ProcRec where
  user : String
  exe : String
  deriving DecidableEq, Repr

/-- Python dict assignment `d[k] = v` on an insertion-ordered
association list: update in place when the key exists, else append. -/
def dictInsert {α β : Type} [DecidableEq α] : List (α × β) → α → β → List (α × β)
  | [], k, v => [(k, v)]
  | (k1, v1) :: rest, k, v =>
    if k1 = k then (k, v) :: rest else (k1, v1) :: dictInsert rest k v

/-- Skip condition for the `exe` filter of `findProcesses`
(`if not p_comm.startswith(exe): continue`). -/
def exeSkip (exe : Option String) (p_comm : String) : Bool :=
  match exe with
  | some e => !strStartsWith p_comm e
  | none => false

/-- Skip condition for the `user` filter of `findProcesses`
(`if p_user != user: continue`). -/
def userSkip (user : Option String) (p_user : String) : Bool :=
  match user with
  | some u => p_user != u
  | none => false

/-- The `for proc in lines` loop of `findProcesses` (processes.py lines
153-165) together with its surrounding `try`: a line that fails to
unpack into three fields, or whose pid fails `int()`, raises
`ValueError`, which the handler turns into `return pids` — the entries
accumulated so far are returned and the remaining lines are discarded. -/
def psParseLoop (user exe : Option String) :
    List String → List (Int × ProcRec) → List (Int × ProcRec)
  | [], acc => acc
  | line :: rest, acc =>
    match pySplitNone2 line with
    | [p_pid, p_user, p_comm] =>
      if exeSkip exe p_comm then psParseLoop user exe rest acc
      else if userSkip user p_user then psParseLoop user exe rest acc
      else
        match pyInt p_pid with
        | some n => psParseLoop user exe rest (dictInsert acc n ⟨p_user, p_comm⟩)
        | none => acc
    | _ => acc

/-- `findProcesses` (processes.py lines 125-170).  The `ps` invocation is
modelled by its return code and raw standard output; the result is the
`pids` dict as an insertion-ordered association list. -/
def findProcesses (user exe : Option String) (retcode : Int) (stdout : String) :
    List (Int × ProcRec) :=
  if stdout = "" || retcode ≠ 0 then []
  else psParseLoop user exe (pySplitlines stdout) []

/-- The marker-file path written by `forceLogoutNow`. -/
def installAtLogoutFlag : String := "/private/tmp/com.googlecode.munki.installatlogout"

/-- The `users` dict of `forceLogoutNow` (processes.py lines 178-179):
`users[procs[pid]['user']] = pid` over the procs dict, collapsing every
user to a single pid.  (Python 2 iterates the dict in unspecified order;
this model iterates in insertion order.  The theorems stated about it —
the kill count and which pids may be targeted — are order-independent.) -/
def usersDictAux : List (Int × ProcRec) → List (String × Int) → List (String × Int)
  | [], acc => acc
  | (pid, rec) :: rest, acc => usersDictAux rest (dictInsert acc rec.user pid)

/-- `forceLogoutNow` (processes.py lines 173-197).  `procs` is the
`findProcesses(exe=LOGINWINDOW)` result (the constant lives in a module
outside this repository slice, so the call's result is a parameter).
The marker file is created before the kill loop; each `os.kill` is
recorded as an event (the code swallows per-pid `OSError`, so the
attempt sequence does not depend on delivery outcomes). -/
def forceLogoutNow (procs : List (Int × ProcRec)) : List Event :=
  let users := usersDictAux procs []
  let users2 := users.filter (fun u => u.1 ≠ "root")
  Event.markerFile installAtLogoutFlag :: users2.map (fun u => Event.killPid u.2)

/-- Number of termination signals sent in an event trace. -/
def countKills (evs : List Event) : Nat :=
  (evs.filter (fun e => match e with | Event.killPid _ => true | _ => false)).length

/-! ## osinstaller.py -/

/-- The percent parse of the `Preparing ` branch (osinstaller.py lines
247-250): `int(float(msg[10:].rstrip().rstrip('.')))` under
`except ValueError: percent = -1`.  `float()` failing and `int()` of NaN
raise `ValueError` (caught, yielding -1); `int()` of an infinity raises
`OverflowError`, which the handler does not catch. -/
def parsePercentTail (tail : String) : Except PyExc Int :=
  match pyFloatOfString (strRstripChar (strRstripWs tail) '.') with
  | none => .ok (-1)
  | some .nan => .ok (-1)
  | some (.infinite _) => .error .overflowError
  | some (.finite m e) => .ok (pyTrunc m e)

/-- Output classification of one line (osinstaller.py lines 242-263),
applied to `msg = info_output.rstrip('\n')`.  Returns the display call
made for the line (`none` for the ignored legalese branch), or the
escaped exception.  `displayStatusMajor` is the status display's
major-status channel (used by `run`, osinstaller.py line 362); the
classifier itself never targets it. -/
def classify (msg : String) : Except PyExc (Option Event) :=
  if strStartsWith msg "Preparing to " then .ok (some (.displayStatusMinor msg))
  else if strStartsWith msg "Preparing " then
    match parsePercentTail (strDrop msg 10) with
    | .ok p => .ok (some (.displayPercent p 100))
    | .error e => .error e
  else if strStartsWith msg "By using the agreetolicense option"
       || strStartsWith msg "If you do not agree," then .ok none
  else if strStartsWith msg "Signaling PID:" || strStartsWith msg "Waiting to reboot"
       || strStartsWith msg "Process signaled okay" then
    .ok (some (.displayDebug1 ("startosinstall: " ++ msg)))
  else .ok (some (.displayStatusMinor msg))

/-- The inactivity ceiling of the streaming loop: `2 * 60 * 60`
second-equivalents (osinstaller.py line 208). -/
def osinstallTimeout : Nat := 2 * 60 * 60

/-- Mutable state of the streaming loop: the `inactive` counter and the
captured `startosinstall_output`. -/
structure LoopState where
  inactive : Nat
  output : List String
  deriving DecidableEq, Repr

/-- What one iteration of the streaming loop observes: the cancellation
flag, the line read from the child's stdout (`""` means no data), and
`job.returncode()` at that moment (`none` means still running). -/
structure Poll where
  stopRequested : Bool
  line : String
  retAfter : Option Int
  deriving DecidableEq, Repr

/-- Why the streaming loop ended. -/
inductive LoopExit where
  | stopped
  | childExited
  | timeout
  deriving DecidableEq, Repr

/-- Result of one loop iteration. -/
inductive IterResult where
  | cont (st : LoopState) (evs : List Event)
  | exits (k : LoopExit) (evs : List Event)
  | raises (e : PyExc)
  deriving DecidableEq, Repr

/-- One iteration of the streaming loop (osinstaller.py lines 210-263):
cancellation check first; an empty read with the child already exited
ends the loop; an empty read with the child running increments
`inactive` and, at the ceiling, reports the timeout and stops the job; a
non-empty read resets `inactive` to zero, appends the line to the
captured output, and classifies it. -/
def loopIter (st : LoopState) (p : Poll) : IterResult :=
  if p.stopRequested then .exits .stopped [Event.stopJob]
  else if p.line = "" then
    if p.retAfter.isSome then .exits .childExited []
    else if st.inactive + 1 ≥ osinstallTimeout then
      .exits .timeout [Event.displayError "startosinstall timeout after 7200 seconds",
                       Event.stopJob]
    else .cont ⟨st.inactive + 1, st.output⟩ []
  else
    match classify (strRstripChar p.line '\n') with
    | .ok (some ev) => .cont ⟨0, st.output ++ [p.line]⟩ [ev]
    | .ok none => .cont ⟨0, st.output ++ [p.line]⟩ []
    | .error e => .raises e

/-- The filesystem / disk-image environment one orchestration attempt
sees: whether `pkgutils.hasValidDiskImageExt` accepts the item, the
mountpoints `dmgutils.mountdmg` yields, `osutils.listdir` of the first
mountpoint, and the set of paths `os.path.exists` affirms. -/
structure FSEnv where
  hasDmgExt : Bool
  mountpoints : List String
  listing : List String
  existsSet : List String
  deriving DecidableEq, Repr

/-- The scan of `find_install_macos_app` (osinstaller.py lines 47-57)
over a directory listing. -/
def findInstallApp (env : FSEnv) (dir_path : String) : List String → Option String
  | [] => none
  | item :: rest =>
    let item_path := pyPathJoin dir_path item
    if env.existsSet.contains (pyPathJoin item_path "Contents/Resources/startosinstall") then
      some item_path
    else findInstallApp env dir_path rest

/-- `find_install_macos_app` (osinstaller.py lines 47-57): the first
top-level item of `dir_path` containing `Contents/Resources/startosinstall`. -/
def find_install_macos_app (env : FSEnv) (dir_path : String) : Option String :=
  findInstallApp env dir_path env.listing

/-- Result of `get_app_path`: the resolved app path or the raised
`StartOSInstallError` message, the value of `self.dmg_mountpoint`
afterwards, and the collaborator calls made. -/
structure ResolveResult where
  outcome : Except String String
  mountpoint : Option String
  events : List Event
  deriving Repr

/-- `StartOSInstallRunner.get_app_path` (osinstaller.py lines 110-136). -/
def get_app_path (env : FSEnv) (itempath : String) : ResolveResult :=
  if strEndsWith itempath ".app" then ⟨.ok itempath, none, []⟩
  else if env.hasDmgExt then
    match env.mountpoints with
    | mp :: _ =>
      match find_install_macos_app env mp with
      | some app_path =>
        ⟨.ok app_path, some mp, [Event.displayInfo ("Mounting disk image " ++ itempath)]⟩
      | none =>
        ⟨.error ("Valid Install macOS.app not found on " ++ itempath), none,
         [Event.displayInfo ("Mounting disk image " ++ itempath), Event.unmountDmg mp]⟩
    | [] =>
      ⟨.error ("No filesystems mounted from " ++ itempath), none,
       [Event.displayInfo ("Mounting disk image " ++ itempath)]⟩
  else
    ⟨.error (itempath ++ " doesn't appear to be an application or disk image"), none, []⟩

/-- One orchestration attempt, abstracted over its environment: the
installer item and filesystem, whether `launchd.Job(...).start()` raised
(`launchErr`), and — for an attempt whose streaming loop has run — the
captured output, the remaining stderr lines, the child's exit code, and
whether the SIGUSR1 handshake was observed. -/
structure RunScenario where
  itempath : String
  fs : FSEnv
  launchErr : Option String
  transcript : List String
  stderrLines : List String
  retcode : Int
  gotSigusr1 : Bool
  osVersion : String
  deriving DecidableEq, Repr

/-- The 78-dash separator `"-" * 78` (osinstaller.py lines 276 and 279). -/
def dashes78 : String := ⟨List.replicate 78 '-'⟩

/-- `StartOSInstallRunner.start` (osinstaller.py lines 138-294) at the
granularity of its exit paths: resolve the app (`get_app_path`), launch
the wrapped job (a launch exception aborts the attempt), then — with the
streaming loop's outputs given by the scenario — force the status
display to 100% and decide success or failure from the exit code and the
handshake flag.  (The command construction of lines 150-196 configures
the child and is not consulted by any exit-path decision.) -/
def start (s : RunScenario) : Except String Unit × List Event :=
  let r := get_app_path s.fs s.itempath
  match r.outcome with
  | .error e => (.error e, r.events)
  | .ok _ =>
    match s.launchErr with
    | some err =>
      (.error err,
       r.events ++ [Event.displayError ("Error with launchd job: " ++ err),
                    Event.displayError "Aborting startosinstall run."])
    | none =>
      let ev0 := r.events ++ [Event.munkistatusPercent 100]
      if s.retcode ≠ 0 then
        let allOutput := s.transcript ++ s.stderrLines
        (.error ("startosinstall failed with return code " ++ toString s.retcode),
         ev0 ++ (match r.mountpoint with
                 | some mp => [Event.unmountDmg mp]
                 | none => [])
             ++ [Event.displayStatusMinor
                   ("Starting macOS install failed with return code " ++ toString s.retcode),
                 Event.displayError dashes78]
             ++ allOutput.map (fun l => Event.displayError (strRstripChar l '\n'))
             ++ [Event.displayError dashes78])
      else if s.gotSigusr1 then
        (.ok (),
         ev0 ++ [Event.logMsg "macOS install successfully set up.",
                 Event.logMsg ("Starting macOS install of " ++ s.osVersion ++ ": SUCCESSFUL")])
      else
        (.error "startosinstall did not complete successfully. See /var/log/install.log for details.",
         ev0 ++ (match r.mountpoint with
                 | some mp => [Event.unmountDmg mp]
                 | none => []))

/-- The top-level `startosinstall` wrapper (osinstaller.py lines
320-333): `True` when `start` returns, `False` when it raises
`StartOSInstallError` (logging the failure). -/
def startosinstall (s : RunScenario) : Bool × List Event :=
  match start s with
  | (.ok _, evs) => (true, evs)
  | (.error e, evs) =>
    (false, evs ++ [Event.displayError ("Error starting macOS install: " ++ e),
                    Event.logMsg ("Starting macOS install: FAILED: " ++ e)])

/-- The mountpoint a scenario's attempt mounts during resolution, if
any: the head of the mount result when the item is a disk image rather
than a local `.app`. -/
def mountedBy (s : RunScenario) : Option String :=
  if strEndsWith s.itempath ".app" then none
  else if s.fs.hasDmgExt then s.fs.mountpoints.head? else none

/-- Whether an event is an `unmountdmg` call for mountpoint `mp`. -/
def isUnmountOf (mp : String) : Event → Bool
  | Event.unmountDmg mp2 => mp2 == mp
  | _ => false

/-- Number of `unmountdmg` calls for mountpoint `mp` in a trace. -/
def countUnmount (mp : String) (evs : List Event) : Nat :=
  (evs.filter (isUnmountOf mp)).length

/-! ## Helper lemmas -/

theorem filter_isEmpty_eq_not_any {α : Type} (p : α → Bool) (l : List α) :
    (l.filter p).isEmpty = !l.any p := by
  induction l with
  | nil => rfl
  | cons a t ih =>
    cases hp : p a <;> simp [List.filter_cons, hp, ih]

theorem classify_preparing_to (msg : String)
    (h : strStartsWith msg "Preparing to " = true) :
    classify msg = .ok (some (Event.displayStatusMinor msg)) := by
  simp [classify, h]

@[simp] theorem isUnmountOf_unmountDmg (mp mp2 : String) :
    isUnmountOf mp (Event.unmountDmg mp2) = (mp2 == mp) := rfl

@[simp] theorem isUnmountOf_displayInfo (mp m : String) :
    isUnmountOf mp (Event.displayInfo m) = false := rfl

@[simp] theorem isUnmountOf_displayError (mp m : String) :
    isUnmountOf mp (Event.displayError m) = false := rfl

@[simp] theorem isUnmountOf_displayStatusMinor (mp m : String) :
    isUnmountOf mp (Event.displayStatusMinor m) = false := rfl

@[simp] theorem isUnmountOf_munkistatusPercent (mp : String) (p : Int) :
    isUnmountOf mp (Event.munkistatusPercent p) = false := rfl

@[simp] theorem isUnmountOf_logMsg (mp m : String) :
    isUnmountOf mp (Event.logMsg m) = false := rfl

theorem countUnmount_append (mp : String) (a b : List Event) :
    countUnmount mp (a ++ b) = countUnmount mp a + countUnmount mp b := by
  simp [countUnmount, List.filter_append]

theorem countUnmount_map_displayError (mp : String) (f : String → String)
    (l : List String) :
    countUnmount mp (l.map (fun x => Event.displayError (f x))) = 0 := by
  induction l with
  | nil => rfl
  | cons a t ih => simp [countUnmount, List.filter_cons, ih]

theorem startosinstall_true_iff (s : RunScenario) :
    (startosinstall s).fst = true ↔ (start s).fst = .ok () := by
  rcases h : start s with ⟨f, ev⟩
  cases f with
  | ok u => cases u; simp [startosinstall, h]
  | error e => simp [startosinstall, h]

theorem candidateNames_eq (l : List InstallsEntry)
    (hpaths : ∀ e ∈ l, e.type_ = "application" → e.path ≠ none) :
    candidateNames l =
      .ok ((l.filter (fun e => e.type_ == "application")).map
            (fun e => pyBasename (e.path.getD ""))) := by
  induction l with
  | nil => rfl
  | cons e rest ih =>
    have hrest : ∀ x ∈ rest, x.type_ = "application" → x.path ≠ none := by
      intro x hx; exact hpaths x (List.mem_cons_of_mem e hx)
    cases he : (e.type_ == "application") with
    | true =>
      cases hp : e.path with
      | none =>
        exact absurd hp (hpaths e (List.mem_cons_self e rest) (eq_of_beq he))
      | some p =>
        simp [candidateNames, he, hp, List.filter_cons, ih hrest, Except.map]
    | false =>
      simp [candidateNames, he, List.filter_cons, ih hrest]

/-! ## Claim C4 -/

/-- Claim C4, counterexample: the line `"Preparing to run"` is forwarded
to the status display's minor-status channel (`display_status_minor`,
osinstaller.py line 244), not to the major-status channel the claim
names. -/
theorem claim_C4_cex :
    classify "Preparing to run" = .ok (some (Event.displayStatusMinor "Preparing to run")) ∧
    classify "Preparing to run" ≠ .ok (some (Event.displayStatusMajor "Preparing to run")) := by
  constructor
  · rfl
  · decide

/-- Claim C4 (amended): classification applies its rules in order with
first match winning, using case-sensitive prefix matching on the line
trimmed of trailing newlines, and every line whose trimmed text starts
with `"Preparing to "` is classified as MinorStatus: it is forwarded to
the minor-status channel, and a streaming-loop iteration that reads such
a line emits exactly that minor-status call. -/
theorem claim_C4_amended :
    (∀ msg : String, strStartsWith msg "Preparing to " = true →
        classify msg = .ok (some (Event.displayStatusMinor msg))) ∧
    (∀ (st : LoopState) (p : Poll), p.stopRequested = false → p.line ≠ "" →
        strStartsWith (strRstripChar p.line '\n') "Preparing to " = true →
        loopIter st p = .cont ⟨0, st.output ++ [p.line]⟩
          [Event.displayStatusMinor (strRstripChar p.line '\n')]) := by
  constructor
  · exact classify_preparing_to
  · intro st p hs hl hpre
    simp [loopIter, hs, hl, classify_preparing_to _ hpre]

/-- Claim C4 witness: the amended theorem applied to the line
`"Preparing to copy\n"`. -/
theorem claim_C4_witness :
    loopIter ⟨5, []⟩ ⟨false, "Preparing to copy\n", none⟩ =
      .cont ⟨0, [] ++ ["Preparing to copy\n"]⟩
        [Event.displayStatusMinor (strRstripChar "Preparing to copy\n" '\n')] :=
  claim_C4_amended.2 ⟨5, []⟩ ⟨false, "Preparing to copy\n", none⟩ rfl (by decide) (by decide)

/-! ## Claim C5 -/

/-- Claim C5, counterexample: the line `"Preparing inf"` is a
percent-complete message (starts with `"Preparing "`, not
`"Preparing to "`), its trailing text parses as an infinite float, and
`int()` of an infinity raises `OverflowError`, which the handler
(`except ValueError`, osinstaller.py line 249) does not catch — so the
parse does raise an exception to the caller, contrary to the claim. -/
theorem claim_C5_cex :
    strStartsWith "Preparing inf" "Preparing " = true ∧
    strStartsWith "Preparing inf" "Preparing to " = false ∧
    classify "Preparing inf" = .error PyExc.overflowError := by
  refine ⟨by decide, by decide, ?_⟩
  rfl

/-- Claim C5 (amended): for every percent-complete line (starts with
`"Preparing "` but not `"Preparing to "`) the trailing text is parsed as
a float and truncated to an integer — `"Preparing 42.0."` yields 42 —
and on a parse failure (a `ValueError`) the result is the sentinel -1
rather than an exception; the one exception that does escape to the
caller is the uncaught `OverflowError` for trailing text that parses as
an infinite float. -/
theorem claim_C5_amended :
    classify "Preparing 42.0." = .ok (some (Event.displayPercent 42 100)) ∧
    classify "Preparing xyz" = .ok (some (Event.displayPercent (-1) 100)) ∧
    (∀ msg : String, strStartsWith msg "Preparing " = true →
        strStartsWith msg "Preparing to " = false →
        pyFloatOfString (strRstripChar (strRstripWs (strDrop msg 10)) '.') = none →
        classify msg = .ok (some (Event.displayPercent (-1) 100))) ∧
    (∀ (msg : String) (m e : Int), strStartsWith msg "Preparing " = true →
        strStartsWith msg "Preparing to " = false →
        pyFloatOfString (strRstripChar (strRstripWs (strDrop msg 10)) '.') =
          some (PyFloat.finite m e) →
        classify msg = .ok (some (Event.displayPercent (pyTrunc m e) 100))) := by
  refine ⟨by rfl, by rfl, ?_, ?_⟩
  · intro msg h1 h2 h3
    simp [classify, parsePercentTail, h1, h2, h3]
  · intro msg m e h1 h2 h3
    simp [classify, parsePercentTail, h1, h2, h3]

/-- Claim C5 witness: the amended theorem applied to the unparsable line
`"Preparing abc"` and to the numeric line `"Preparing 55"`. -/
theorem claim_C5_witness :
    classify "Preparing abc" = .ok (some (Event.displayPercent (-1) 100)) ∧
    classify "Preparing 55" = .ok (some (Event.displayPercent (pyTrunc 55 0) 100)) :=
  ⟨claim_C5_amended.2.2.1 "Preparing abc" (by decide) (by decide) (by decide),
   claim_C5_amended.2.2.2 "Preparing 55" 55 0 (by decide) (by decide) (by decide)⟩

/-! ## Claim C6 -/

/-- Claim C6, counterexample: for the absolute-path query `"/Foo"`
against a process table whose only entry is
`"//Foo.app/Contents/MacOS/Foo"`, no entry equals the query, yet
`isAppRunning` returns true — the bundle-suffix fallback (processes.py
lines 85-88) also applies to absolute-path queries, contrary to the
claim. -/
theorem claim_C6_cex :
    strStartsWith "/Foo" "/" = true ∧
    isAppRunning ["//Foo.app/Contents/MacOS/Foo"] "/Foo" = true ∧
    ("//Foo.app/Contents/MacOS/Foo" : String) ≠ "/Foo" := by
  refine ⟨by decide, ?_, by decide⟩
  rfl

/-- Claim C6 (amended): for every process table and every absolute-path
query, `isAppRunning` returns true exactly when some running executable
path equals the query, or — the fallback, which does apply to
absolute-path queries — some running executable path contains
`"/" ++ query ++ ".app/Contents/MacOS/"` as a substring. -/
theorem claim_C6_amended (proc_list : List String) (appname : String)
    (h : strStartsWith appname "/" = true) :
    isAppRunning proc_list appname =
      (proc_list.any (fun item => item == appname)
       || proc_list.any
            (fun item => strContains item ("/" ++ appname ++ ".app/Contents/MacOS/"))) := by
  simp only [isAppRunning, h, if_true, filter_isEmpty_eq_not_any]
  cases h1 : proc_list.any (fun item => item == appname) <;>
    cases h2 : proc_list.any
        (fun item => strContains item ("/" ++ appname ++ ".app/Contents/MacOS/")) <;>
    simp [h1, h2, filter_isEmpty_eq_not_any]

/-- Claim C6 witness: the amended theorem applied to the query
`"/usr/bin/vim"` with that executable running. -/
theorem claim_C6_witness :
    isAppRunning ["/usr/bin/vim"] "/usr/bin/vim" =
      ((["/usr/bin/vim"] : List String).any (fun item => item == "/usr/bin/vim")
       || (["/usr/bin/vim"] : List String).any
            (fun item => strContains item ("/" ++ "/usr/bin/vim" ++ ".app/Contents/MacOS/"))) :=
  claim_C6_amended ["/usr/bin/vim"] "/usr/bin/vim" (by decide)

/-! ## Claim C1 -/

/-- Claim C1: the orchestration attempt reports success exactly when the
child's exit code is zero and the handshake signal was received; a
non-zero exit code raises the "failed with return code" error and the
failure path carries the full captured transcript (every captured line,
stderr included, is replayed to the error display); a zero exit code
without the handshake raises the "did not complete successfully" error;
and the top-level `startosinstall` wrapper returns true exactly when
`start` raises neither failure. -/
theorem claim_C1 :
    (∀ s : RunScenario, (startosinstall s).fst = true ↔ (start s).fst = .ok ()) ∧
    (∀ (s : RunScenario) (app : String),
        (get_app_path s.fs s.itempath).outcome = .ok app → s.launchErr = none →
        (((startosinstall s).fst = true) ↔ (s.retcode = 0 ∧ s.gotSigusr1 = true)) ∧
        (s.retcode ≠ 0 →
            (start s).fst =
              .error ("startosinstall failed with return code " ++ toString s.retcode) ∧
            ∀ l ∈ s.transcript ++ s.stderrLines,
              Event.displayError (strRstripChar l '\n') ∈ (start s).snd) ∧
        (s.retcode = 0 → s.gotSigusr1 = false →
            (start s).fst =
              .error "startosinstall did not complete successfully. See /var/log/install.log for details.")) := by
  refine ⟨startosinstall_true_iff, ?_⟩
  intro s app hres hl
  refine ⟨?_, ?_, ?_⟩
  · rw [startosinstall_true_iff]
    by_cases hr : s.retcode = 0
    · by_cases hg : s.gotSigusr1 = true
      · simp [start, hres, hl, hr, hg]
      · simp [start, hres, hl, hr, hg]
    · simp [start, hres, hl, hr]
  · intro hr
    constructor
    · simp [start, hres, hl, hr]
    · intro l hml
      have hm2 : Event.displayError (strRstripChar l '\n') ∈
          (s.transcript ++ s.stderrLines).map
            (fun x => Event.displayError (strRstripChar x '\n')) :=
        List.mem_map_of_mem _ hml
      simp only [start, hres, hl, if_pos hr]
      exact List.mem_append_left _ (List.mem_append_right _ hm2)
  · intro hr hg
    simp [start, hres, hl, hr, hg]

/-- Claim C1 witness: a locally installed app scenario whose child
exited with code 1 and no handshake — `start` raises the non-zero-exit
failure, its trace replays the captured line, and the wrapper returns
false. -/
theorem claim_C1_witness :
    ((start ⟨"/Applications/Install macOS Sierra.app", ⟨false, [], [], []⟩, none,
        ["output line\n"], ["stderr line"], 1, false, "10.12.5"⟩).fst =
      .error ("startosinstall failed with return code " ++ toString (1 : Int))) ∧
    Event.displayError (strRstripChar "output line\n" '\n') ∈
      (start ⟨"/Applications/Install macOS Sierra.app", ⟨false, [], [], []⟩, none,
        ["output line\n"], ["stderr line"], 1, false, "10.12.5"⟩).snd ∧
    ((startosinstall ⟨"/Applications/Install macOS Sierra.app", ⟨false, [], [], []⟩, none,
        ["output line\n"], ["stderr line"], 1, false, "10.12.5"⟩).fst = true ↔
      ((1 : Int) = 0 ∧ false = true)) := by
  have h := claim_C1.2
    ⟨"/Applications/Install macOS Sierra.app", ⟨false, [], [], []⟩, none,
     ["output line\n"], ["stderr line"], 1, false, "10.12.5"⟩
    "/Applications/Install macOS Sierra.app" rfl rfl
  have h2 := h.2.1 (by decide)
  exact ⟨h2.1, h2.2 "output line\n" (by simp), h.1⟩

/-! ## Claim C2 -/

/-- The launch-failure scenario: a disk image that mounts and contains a
valid installer, after which starting the launchd job raises. -/
def dmgLaunchFailScenario : RunScenario :=
  ⟨"InstallOS.dmg",
   ⟨true, ["/Volumes/Install"], ["Install macOS.app"],
    ["/Volumes/Install/Install macOS.app/Contents/Resources/startosinstall"]⟩,
   some "launch failed", [], [], 0, false, "10.12"⟩

/-- Claim C2, counterexample: on the launch-failure exit path the
attempt fails with the disk image still mounted — the mount point is
unmounted zero times, not exactly once as the claim requires of every
failure exit path (osinstaller.py lines 198-205 raise without
unmounting). -/
theorem claim_C2_cex :
    mountedBy dmgLaunchFailScenario = some "/Volumes/Install" ∧
    (start dmgLaunchFailScenario).fst = .error "launch failed" ∧
    countUnmount "/Volumes/Install" (start dmgLaunchFailScenario).snd = 0 := by
  refine ⟨by rfl, by rfl, by rfl⟩

/-- Claim C2 (amended): when a disk image was mounted by the attempt,
the no-valid-installer, non-zero-exit and zero-exit-without-handshake
failure exit paths unmount the mount point exactly once, and the success
exit path leaves it mounted — but the launch-failure exit path also
leaves it mounted.  Stated as an exact unmount count for every scenario
that mounted a disk image. -/
theorem claim_C2_amended (s : RunScenario) (mp : String)
    (h : mountedBy s = some mp) :
    countUnmount mp (start s).snd =
      (if (find_install_macos_app s.fs mp).isSome = true
       then (if s.launchErr = none
             then (if s.retcode = 0 ∧ s.gotSigusr1 = true then 0 else 1)
             else 0)
       else 1) := by
  unfold mountedBy at h
  by_cases h1 : strEndsWith s.itempath ".app" = true
  · simp [h1] at h
  · rw [if_neg h1] at h
    by_cases h2 : s.fs.hasDmgExt = true
    · rw [if_pos h2] at h
      cases hmps : s.fs.mountpoints with
      | nil => rw [hmps] at h; simp at h
      | cons mp0 tl =>
        rw [hmps] at h
        simp at h
        subst h
        cases hfa : find_install_macos_app s.fs mp0 with
        | none =>
          simp [start, get_app_path, h1, h2, hmps, hfa, countUnmount, List.filter_cons]
        | some app =>
          cases hle : s.launchErr with
          | some err =>
            simp [start, get_app_path, h1, h2, hmps, hfa, hle, countUnmount,
                  List.filter_cons]
          | none =>
            by_cases hr : s.retcode = 0
            · by_cases hg : s.gotSigusr1 = true
              · simp [start, get_app_path, h1, h2, hmps, hfa, hle, hr, hg,
                      countUnmount, List.filter_cons]
              · simp [start, get_app_path, h1, h2, hmps, hfa, hle, hr, hg,
                      countUnmount, List.filter_cons]
            · simp [start, get_app_path, h1, h2, hmps, hfa, hle, hr,
                    countUnmount_append, countUnmount_map_displayError,
                    countUnmount, List.filter_cons]
    · rw [if_neg h2] at h; simp at h

/-- Claim C2 witness: the amended theorem applied to a mounted-image
scenario whose child exits non-zero — exactly one unmount — and to a
mounted-image success scenario — zero unmounts, the image is left
mounted. -/
theorem claim_C2_witness :
    countUnmount "/Volumes/Install" (start
      ⟨"InstallOS.dmg",
       ⟨true, ["/Volumes/Install"], ["Install macOS.app"],
        ["/Volumes/Install/Install macOS.app/Contents/Resources/startosinstall"]⟩,
       none, ["line\n"], [], 2, false, "10.12"⟩).snd = 1 ∧
    countUnmount "/Volumes/Install" (start
      ⟨"InstallOS.dmg",
       ⟨true, ["/Volumes/Install"], ["Install macOS.app"],
        ["/Volumes/Install/Install macOS.app/Contents/Resources/startosinstall"]⟩,
       none, ["line\n"], [], 0, true, "10.12"⟩).snd = 0 := by
  constructor
  · have h := claim_C2_amended
      ⟨"InstallOS.dmg",
       ⟨true, ["/Volumes/Install"], ["Install macOS.app"],
        ["/Volumes/Install/Install macOS.app/Contents/Resources/startosinstall"]⟩,
       none, ["line\n"], [], 2, false, "10.12"⟩ "/Volumes/Install" (by rfl)
    simpa using h
  · have h := claim_C2_amended
      ⟨"InstallOS.dmg",
       ⟨true, ["/Volumes/Install"], ["Install macOS.app"],
        ["/Volumes/Install/Install macOS.app/Contents/Resources/startosinstall"]⟩,
       none, ["line\n"], [], 0, true, "10.12"⟩ "/Volumes/Install" (by rfl)
    simpa using h

/-! ## Claim C3 -/

/-- Claim C3: in the streaming loop, the inactivity counter is reset to
zero on every iteration that reads a non-empty line, is incremented only
on iterations with an empty read while the child is still running, and
reaching the fixed ceiling (7200 second-equivalents, two hours) always
stops the child and ends the loop in a timeout failure — never a silent
continuation.  Stated as a complete case characterization of one loop
iteration: the five cases below cover every input, and in each
continuing case the counter is either reset to zero or incremented by
one strictly below the ceiling. -/
theorem claim_C3 :
    osinstallTimeout = 7200 ∧
    (∀ (st : LoopState) (p : Poll), p.stopRequested = false → p.line ≠ "" →
        (∃ evs, loopIter st p = .cont ⟨0, st.output ++ [p.line]⟩ evs) ∨
        (∃ e, loopIter st p = .raises e)) ∧
    (∀ (st : LoopState) (p : Poll), p.stopRequested = false → p.line = "" →
        p.retAfter = none → st.inactive + 1 < osinstallTimeout →
        loopIter st p = .cont ⟨st.inactive + 1, st.output⟩ []) ∧
    (∀ (st : LoopState) (p : Poll), p.stopRequested = false → p.line = "" →
        p.retAfter = none → st.inactive + 1 ≥ osinstallTimeout →
        loopIter st p = .exits .timeout
          [Event.displayError "startosinstall timeout after 7200 seconds",
           Event.stopJob]) ∧
    (∀ (st : LoopState) (p : Poll), p.stopRequested = true →
        loopIter st p = .exits .stopped [Event.stopJob]) ∧
    (∀ (st : LoopState) (p : Poll) (r : Int), p.stopRequested = false → p.line = "" →
        p.retAfter = some r → loopIter st p = .exits .childExited []) := by
  refine ⟨rfl, ?_, ?_, ?_, ?_, ?_⟩
  · intro st p hs hl
    cases hc : classify (strRstripChar p.line '\n') with
    | ok v =>
      cases v with
      | some ev => exact Or.inl ⟨[ev], by simp [loopIter, hs, hl, hc]⟩
      | none => exact Or.inl ⟨[], by simp [loopIter, hs, hl, hc]⟩
    | error e => exact Or.inr ⟨e, by simp [loopIter, hs, hl, hc]⟩
  · intro st p hs hl hr hlt
    simp [loopIter, hs, hl, hr, Nat.not_le_of_lt hlt]
  · intro st p hs hl hr hge
    simp [loopIter, hs, hl, hr, hge]
  · intro st p hs
    simp [loopIter, hs]
  · intro st p r hs hl hr
    simp [loopIter, hs, hl, hr]

/-- Claim C3 witness: one iteration at counter 7199 with an empty read
and a running child stops the job with the timeout error; one iteration
at counter 5 increments to 6; one iteration reading a line resets to 0. -/
theorem claim_C3_witness :
    loopIter ⟨7199, []⟩ ⟨false, "", none⟩ =
      .exits .timeout
        [Event.displayError "startosinstall timeout after 7200 seconds", Event.stopJob] ∧
    loopIter ⟨5, []⟩ ⟨false, "", none⟩ = .cont ⟨6, []⟩ [] ∧
    ((∃ evs, loopIter ⟨5, ["a\n"]⟩ ⟨false, "b\n", none⟩ =
        .cont ⟨0, ["a\n"] ++ ["b\n"]⟩ evs) ∨
     (∃ e, loopIter ⟨5, ["a\n"]⟩ ⟨false, "b\n", none⟩ = .raises e)) :=
  ⟨claim_C3.2.2.2.1 ⟨7199, []⟩ ⟨false, "", none⟩ rfl rfl rfl (by decide),
   claim_C3.2.2.1 ⟨5, []⟩ ⟨false, "", none⟩ rfl rfl rfl (by decide),
   claim_C3.2.1 ⟨5, ["a\n"]⟩ ⟨false, "b\n", none⟩ rfl (by decide)⟩

/-! ## Claim C10 -/

/-- Claim C10: when at least one candidate blocking application is
running, `blockingApplicationsRunning` reads the descriptor's `name`
key for its diagnostic report, so a descriptor lacking `name` makes the
true-returning path raise `KeyError`; the false-returning path does not
touch `name`. -/
theorem claim_C10 (procs : List String) (pkg : PkgInfoItem) (names : List String)
    (h1 : pkg.name = none) (h2 : appnamesOf pkg = .ok names) :
    ((∃ a ∈ names, isAppRunning procs a = true) →
        blockingApplicationsRunning procs pkg = .error .keyError) ∧
    ((∀ a ∈ names, isAppRunning procs a = false) →
        blockingApplicationsRunning procs pkg = .ok false) := by
  constructor
  · intro hrun
    have hne : (names.filter (fun a => isAppRunning procs a)).isEmpty = false := by
      rw [filter_isEmpty_eq_not_any]
      obtain ⟨a, ha, harun⟩ := hrun
      simp [List.any_eq_true]
      exact ⟨a, ha, harun⟩
    simp [blockingApplicationsRunning, h1, h2, hne]
  · intro hnone
    have hemp : (names.filter (fun a => isAppRunning procs a)).isEmpty = true := by
      rw [filter_isEmpty_eq_not_any]
      simp [List.any_eq_true]
      intro a ha
      simp [hnone a ha]
    simp [blockingApplicationsRunning, h1, h2, hemp]

/-- Claim C10 witness: a descriptor with blocking application
`Safari.app`, no `name` key, and Safari running: the evaluator raises
`KeyError` instead of returning true. -/
theorem claim_C10_witness :
    blockingApplicationsRunning ["/Applications/Safari.app/Contents/MacOS/Safari"]
      ⟨some ["Safari.app"], none, none⟩ = .error .keyError :=
  (claim_C10 ["/Applications/Safari.app/Contents/MacOS/Safari"]
      ⟨some ["Safari.app"], none, none⟩ ["Safari.app"] rfl rfl).1
    ⟨"Safari.app", by decide, by decide⟩

/-! ## Claim C7 -/

/-- Claim C7: with an explicit `blocking_applications` list the
evaluator uses exactly those names and ignores `installs` entirely (even
when both are present); otherwise the candidates are the final path
components of the paths of the `installs` entries of type
`"application"`; and (given the `name` key needed by the true-returning
path, see C10) the evaluator returns true exactly when some candidate is
running. -/
theorem claim_C7 (procs : List String) :
    (∀ (bl : List String) (i1 i2 : Option (List InstallsEntry)) (nm : Option String),
        blockingApplicationsRunning procs ⟨some bl, i1, nm⟩ =
          blockingApplicationsRunning procs ⟨some bl, i2, nm⟩) ∧
    (∀ (l : List InstallsEntry) (nm : Option String),
        (∀ e ∈ l, e.type_ = "application" → e.path ≠ none) →
        appnamesOf ⟨none, some l, nm⟩ =
          .ok ((l.filter (fun e => e.type_ == "application")).map
                (fun e => pyBasename (e.path.getD "")))) ∧
    (∀ (pkg : PkgInfoItem) (nm : String) (names : List String),
        pkg.name = some nm → appnamesOf pkg = .ok names →
        (blockingApplicationsRunning procs pkg = .ok true ↔
           ∃ a ∈ names, isAppRunning procs a = true)) := by
  refine ⟨?_, ?_, ?_⟩
  · intro bl i1 i2 nm
    simp [blockingApplicationsRunning, appnamesOf]
  · intro l nm hpaths
    simp only [appnamesOf, Option.getD]
    exact candidateNames_eq l hpaths
  · intro pkg nm names hn ha
    cases hemp : (names.filter (fun a => isAppRunning procs a)).isEmpty with
    | true =>
      have : ¬ ∃ a ∈ names, isAppRunning procs a = true := by
        rw [filter_isEmpty_eq_not_any] at hemp
        simp [List.any_eq_true] at hemp
        intro ⟨a, haa, har⟩
        simp [hemp a haa] at har
      simp [blockingApplicationsRunning, ha, hemp, this]
    | false =>
      have : ∃ a ∈ names, isAppRunning procs a = true := by
        rw [filter_isEmpty_eq_not_any] at hemp
        simp [List.any_eq_true] at hemp
        exact hemp
      simp [blockingApplicationsRunning, ha, hemp, hn, this]

/-- Claim C7 witness: the end-to-end scenario from the spec — the
descriptor lists `Safari.app` as blocking (with a `name` key present)
and Safari is running, so the evaluator returns true; and the derived
candidates of an `installs`-only descriptor are the basenames of its
application entries. -/
theorem claim_C7_witness :
    blockingApplicationsRunning ["/Applications/Safari.app/Contents/MacOS/Safari"]
      ⟨some ["Safari.app"], none, some "pkg"⟩ = .ok true ∧
    appnamesOf ⟨none, some [⟨"application", some "/Applications/Foo.app"⟩,
                            ⟨"file", some "/etc/hosts"⟩], none⟩ =
      .ok (([⟨"application", some "/Applications/Foo.app"⟩,
             (⟨"file", some "/etc/hosts"⟩ : InstallsEntry)].filter
              (fun e => e.type_ == "application")).map
            (fun e => pyBasename (e.path.getD ""))) :=
  ⟨((claim_C7 ["/Applications/Safari.app/Contents/MacOS/Safari"]).2.2
      ⟨some ["Safari.app"], none, some "pkg"⟩ "pkg" ["Safari.app"] rfl rfl).mpr
      ⟨"Safari.app", by decide, by decide⟩,
   (claim_C7 []).2.1 [⟨"application", some "/Applications/Foo.app"⟩,
                      ⟨"file", some "/etc/hosts"⟩] none (by decide)⟩

/-! ## Claim C8 -/

/-- Claim C8, counterexample: a malformed line does not leave the rest
of the snapshot intact, and a parse exception does not yield an empty
result.  With well-formed lines before and after the malformed
`"badline"`, `findProcesses` keeps only the entries accumulated before
it (a non-empty partial result, contradicting "parse exception yields an
empty result") and discards the well-formed line after it
(contradicting "discards each malformed line while keeping the rest"). -/
theorem claim_C8_cex :
    findProcesses none none 0 "1 root /sbin/launchd\nbadline\n2 alice /Applications/Foo"
      = [(1, ⟨"root", "/sbin/launchd"⟩)] ∧
    findProcesses none none 0 "badline\n2 alice /Applications/Foo" = [] := by
  constructor
  · rfl
  · rfl

/-- Claim C8 (amended): a non-zero exit status of the process-listing
facility, or empty output, yields an empty result, and a parse exception
never escapes; but a malformed line aborts the parse at that point — the
entries accumulated before it are returned and the remaining lines are
discarded (rather than the malformed line alone being skipped). -/
theorem claim_C8_amended :
    (∀ (user exe : Option String) (retcode : Int) (stdout : String),
        retcode ≠ 0 → findProcesses user exe retcode stdout = []) ∧
    (∀ (user exe : Option String) (retcode : Int),
        findProcesses user exe retcode "" = []) ∧
    (∀ (user exe : Option String) (line : String) (rest : List String)
        (acc : List (Int × ProcRec)),
        (pySplitNone2 line).length ≠ 3 →
        psParseLoop user exe (line :: rest) acc = acc) ∧
    (∀ (user exe : Option String) (line : String) (rest : List String)
        (acc : List (Int × ProcRec)) (p_pid p_user p_comm : String),
        pySplitNone2 line = [p_pid, p_user, p_comm] →
        exeSkip exe p_comm = false → userSkip user p_user = false →
        pyInt p_pid = none →
        psParseLoop user exe (line :: rest) acc = acc) ∧
    (∀ (ret1 : Int) (out1 : String) (ret2 : Int) (out2 : String),
        ret1 ≠ 0 → getRunningProcesses ret1 out1 ret2 out2 = []) := by
  refine ⟨?_, ?_, ?_, ?_, ?_⟩
  · intro user exe retcode stdout h
    simp [findProcesses, h]
  · intro user exe retcode
    simp [findProcesses]
  · intro user exe line rest acc h
    match h3 : pySplitNone2 line with
    | [] => simp [psParseLoop, h3]
    | [a] => simp [psParseLoop, h3]
    | [a, b] => simp [psParseLoop, h3]
    | [a, b, c] => exact absurd (by simp [h3]) h
    | a :: b :: c :: d :: t => simp [psParseLoop, h3]
  · intro user exe line rest acc p_pid p_user p_comm h3 hx hu hi
    simp [psParseLoop, h3, hx, hu, hi]
  · intro ret1 out1 ret2 out2 h
    simp [getRunningProcesses, h]

/-! ## Claim C9 -/

theorem dictInsert_mem {α β : Type} [DecidableEq α] (d : List (α × β)) (k : α) (v : β)
    (x : α × β) (h : x ∈ dictInsert d k v) : x = (k, v) ∨ x ∈ d := by
  induction d with
  | nil => simp [dictInsert] at h; exact Or.inl h
  | cons hd tl ih =>
    obtain ⟨k1, v1⟩ := hd
    simp only [dictInsert] at h
    by_cases hk : k1 = k
    · rw [if_pos hk] at h
      rcases List.mem_cons.mp h with h1 | h1
      · exact Or.inl h1
      · exact Or.inr (List.mem_cons_of_mem _ h1)
    · rw [if_neg hk] at h
      rcases List.mem_cons.mp h with h1 | h1
      · exact Or.inr (h1 ▸ List.mem_cons_self _ _)
      · rcases ih h1 with h2 | h2
        · exact Or.inl h2
        · exact Or.inr (List.mem_cons_of_mem _ h2)

theorem dictInsert_keys_toFinset {α β : Type} [DecidableEq α]
    (d : List (α × β)) (k : α) (v : β) :
    ((dictInsert d k v).map Prod.fst).toFinset = insert k (d.map Prod.fst).toFinset := by
  induction d with
  | nil => simp [dictInsert]
  | cons hd tl ih =>
    obtain ⟨k1, v1⟩ := hd
    by_cases hk : k1 = k
    · subst hk
      simp [dictInsert]
    · simp only [dictInsert, if_neg hk, List.map_cons, List.toFinset_cons, ih]
      rw [Finset.Insert.comm]

theorem dictInsert_keys_nodup {α β : Type} [DecidableEq α]
    (d : List (α × β)) (k : α) (v : β) (h : (d.map Prod.fst).Nodup) :
    ((dictInsert d k v).map Prod.fst).Nodup := by
  induction d with
  | nil => simp [dictInsert]
  | cons hd tl ih =>
    obtain ⟨k1, v1⟩ := hd
    simp only [List.map_cons, List.nodup_cons] at h
    obtain ⟨hnotin, hnd⟩ := h
    by_cases hk : k1 = k
    · subst hk
      simp only [dictInsert, if_true, eq_self_iff_true, List.map_cons, List.nodup_cons,
                 ite_true]
      exact ⟨hnotin, hnd⟩
    · simp only [dictInsert, if_neg hk, List.map_cons, List.nodup_cons]
      refine ⟨?_, ih hnd⟩
      intro hmem
      have hx : k1 ∈ ((dictInsert tl k v).map Prod.fst).toFinset :=
        List.mem_toFinset.mpr hmem
      rw [dictInsert_keys_toFinset] at hx
      rcases Finset.mem_insert.mp hx with h1 | h1
      · exact hk h1
      · exact hnotin (List.mem_toFinset.mp h1)

theorem usersDictAux_mem (procs : List (Int × ProcRec)) :
    ∀ (acc : List (String × Int)) (x : String × Int), x ∈ usersDictAux procs acc →
      x ∈ acc ∨ ∃ rec : ProcRec, (x.2, rec) ∈ procs ∧ rec.user = x.1 := by
  induction procs with
  | nil =>
    intro acc x h
    simp only [usersDictAux] at h
    exact Or.inl h
  | cons hd tl ih =>
    intro acc x h
    obtain ⟨pid, rec⟩ := hd
    simp only [usersDictAux] at h
    rcases ih _ x h with h1 | h1
    · rcases dictInsert_mem _ _ _ _ h1 with h2 | h2
      · subst h2
        exact Or.inr ⟨rec, List.mem_cons_self _ _, rfl⟩
      · exact Or.inl h2
    · obtain ⟨rec2, hmem, huser⟩ := h1
      exact Or.inr ⟨rec2, List.mem_cons_of_mem _ hmem, huser⟩

theorem usersDictAux_keys_toFinset (procs : List (Int × ProcRec)) :
    ∀ acc : List (String × Int),
      ((usersDictAux procs acc).map Prod.fst).toFinset =
        (acc.map Prod.fst).toFinset ∪ (procs.map (fun pr => pr.2.user)).toFinset := by
  induction procs with
  | nil =>
    intro acc
    simp [usersDictAux]
  | cons hd tl ih =>
    intro acc
    obtain ⟨pid, rec⟩ := hd
    simp only [usersDictAux, List.map_cons, List.toFinset_cons]
    rw [ih, dictInsert_keys_toFinset, Finset.insert_union, Finset.union_insert]

theorem usersDictAux_keys_nodup (procs : List (Int × ProcRec)) :
    ∀ acc : List (String × Int), (acc.map Prod.fst).Nodup →
      ((usersDictAux procs acc).map Prod.fst).Nodup := by
  induction procs with
  | nil =>
    intro acc h
    simpa [usersDictAux] using h
  | cons hd tl ih =>
    intro acc h
    obtain ⟨pid, rec⟩ := hd
    simp only [usersDictAux]
    exact ih _ (dictInsert_keys_nodup _ _ _ h)

theorem map_fst_filter_ne (users : List (String × Int)) :
    (users.filter (fun u => u.1 ≠ "root")).map Prod.fst =
      (users.map Prod.fst).filter (fun x => x ≠ "root") := by
  induction users with
  | nil => rfl
  | cons hd tl ih =>
    by_cases h : hd.1 = "root"
    · simp only [List.filter_cons, List.map_cons, h, decide_not] at ih ⊢
      simp [ih]
    · simp only [List.filter_cons, List.map_cons, decide_not] at ih ⊢
      simp [h, ih]

theorem countKills_map_kill (l : List (String × Int)) :
    countKills (l.map (fun u => Event.killPid u.2)) = l.length := by
  induction l with
  | nil => rfl
  | cons hd tl ih => simp [countKills, List.filter_cons] at ih ⊢; exact ih

theorem countKills_forceLogoutNow (procs : List (Int × ProcRec)) :
    countKills (forceLogoutNow procs) =
      ((usersDictAux procs []).filter (fun u => u.1 ≠ "root")).length := by
  have h := countKills_map_kill ((usersDictAux procs []).filter (fun u => u.1 ≠ "root"))
  simp only [forceLogoutNow, countKills, List.filter_cons] at h ⊢
  exact h

/-- Claim C9, counterexample: one user owning two session-owner
processes receives a single termination signal, not one per (user, pid)
pair — the `users` dict (processes.py lines 178-179) is keyed by user
and collapses the pids. -/
theorem claim_C9_cex :
    forceLogoutNow [(100, ⟨"alice", "/lw"⟩), (200, ⟨"alice", "/lw"⟩)] =
      [Event.markerFile installAtLogoutFlag, Event.killPid 200] ∧
    countKills (forceLogoutNow [(100, ⟨"alice", "/lw"⟩), (200, ⟨"alice", "/lw"⟩)]) = 1 := by
  refine ⟨by rfl, by rfl⟩

/-- Claim C9 (amended): `forceLogoutNow` creates the marker file at the
well-known path before sending any termination signal (the marker event
is first and everything after it is a kill), sends exactly one
termination signal per distinct non-superuser owner of a session-owner
process (not one per (user, pid) pair: when a user owns several, the
pids collapse to one), and every signalled pid belongs to some non-root
process entry; per-pid delivery errors are swallowed, so the attempt
sequence does not depend on delivery outcomes. -/
theorem claim_C9_amended (procs : List (Int × ProcRec)) :
    (∃ rest, forceLogoutNow procs = Event.markerFile installAtLogoutFlag :: rest ∧
        ∀ e ∈ rest, ∃ pid : Int, e = Event.killPid pid) ∧
    countKills (forceLogoutNow procs) =
      ((procs.map (fun pr => pr.2.user)).toFinset.erase "root").card ∧
    (∀ pid : Int, Event.killPid pid ∈ forceLogoutNow procs →
        ∃ pr ∈ procs, pr.1 = pid ∧ pr.2.user ≠ "root") := by
  refine ⟨?_, ?_, ?_⟩
  · refine ⟨_, rfl, ?_⟩
    intro e he
    rw [List.mem_map] at he
    obtain ⟨u, _, heq⟩ := he
    exact ⟨u.2, heq.symm⟩
  · have hnd : ((usersDictAux procs []).map Prod.fst).Nodup :=
      usersDictAux_keys_nodup procs [] (by simp)
    have hset : ((usersDictAux procs []).map Prod.fst).toFinset =
        (procs.map (fun pr => pr.2.user)).toFinset := by
      rw [usersDictAux_keys_toFinset]
      simp
    have hndf : (((usersDictAux procs []).map Prod.fst).filter
        (fun x => x ≠ "root")).Nodup := hnd.filter _
    rw [countKills_forceLogoutNow,
        ← List.length_map ((usersDictAux procs []).filter (fun u => u.1 ≠ "root")) Prod.fst,
        map_fst_filter_ne, ← List.toFinset_card_of_nodup hndf, List.toFinset_filter,
        hset]
    congr 1
    rw [← Finset.filter_ne']
    apply Finset.filter_congr
    intro x _
    simp
  · intro pid hmem
    simp only [forceLogoutNow, List.mem_cons] at hmem
    rcases hmem with h1 | h1
    · exact absurd h1 (by simp)
    · rw [List.mem_map] at h1
      obtain ⟨u, hu, heq⟩ := h1
      have hu2 := List.of_mem_filter hu
      have hu3 : u ∈ usersDictAux procs [] := List.mem_of_mem_filter hu
      rcases usersDictAux_mem procs [] u hu3 with h2 | h2
      · simp at h2
      · obtain ⟨rec, hmem2, huser⟩ := h2
        refine ⟨(u.2, rec), hmem2, ?_, ?_⟩
        · have : Event.killPid u.2 = Event.killPid pid := heq
          simpa using this
        · simp only [huser]
          simpa using hu2

/-- Claim C9 witness: the amended theorem applied to a table where alice
owns two loginwindow processes, root one, and bob one: two kills (one
per non-root user), and pid 400 belongs to bob's non-root entry. -/
theorem claim_C9_witness :
    countKills (forceLogoutNow
      ([(100, ⟨"alice", "/lw"⟩), (200, ⟨"alice", "/lw"⟩),
        (300, ⟨"root", "/lw"⟩), (400, ⟨"bob", "/lw"⟩)] : List (Int × ProcRec))) =
      ((([(100, ⟨"alice", "/lw"⟩), (200, ⟨"alice", "/lw"⟩),
          (300, ⟨"root", "/lw"⟩), (400, ⟨"bob", "/lw"⟩)] : List (Int × ProcRec)).map
          (fun pr => pr.2.user)).toFinset.erase "root").card ∧
    (∃ pr ∈ ([(100, ⟨"alice", "/lw"⟩), (200, ⟨"alice", "/lw"⟩),
              (300, ⟨"root", "/lw"⟩), (400, ⟨"bob", "/lw"⟩)] : List (Int × ProcRec)),
        pr.1 = 400 ∧ pr.2.user ≠ "root") :=
  ⟨(claim_C9_amended _).2.1, (claim_C9_amended _).2.2 400 (by decide)⟩

/-- Claim C8 witness: the amended theorem applied to a malformed head
line with a pending well-formed line behind it, and to a non-zero exit
status. -/
theorem claim_C8_witness :
    psParseLoop none none ["badline", "2 alice /Applications/Foo"]
      [(1, ⟨"root", "/sbin/launchd"⟩)] = [(1, ⟨"root", "/sbin/launchd"⟩)] ∧
    findProcesses none none 1 "1 root /sbin/launchd" = [] :=
  ⟨claim_C8_amended.2.2.1 none none "badline" ["2 alice /Applications/Foo"]
      [(1, ⟨"root", "/sbin/launchd"⟩)] (by decide),
   claim_C8_amended.1 none none 1 "1 root /sbin/launchd" (by decide)⟩

end Munki
